import Mathlib

/-!
Verification of the AsciiDoc MkDocs backend plugin
(`asciidoc_backend/__init__.py`) against its natural-language specification.

The Python module is shallowly embedded below:

* HTML documents are modelled by the inductive type `Node` (element / text),
  mirroring the parsed tree BeautifulSoup's `html.parser` builds, together
  with an executable fragment parser (`parseHTML`) and serializer
  (`serializeForest`) that model `BeautifulSoup(...)` / `decode_contents()` /
  `str(soup)` on the markup fragment the plugin manipulates.
* Pure string helpers (`_slugify`, `_escape`) become pure string functions.
* The render cache `_render_adoc_cached` becomes explicit state passing over
  an association list (modelling the Python dict), with the subprocess
  outcome of `_run_asciidoctor` made an explicit `ProcResult` parameter and
  `raise SystemExit` modelled as `Except.error`.
* The three normalizer passes and the TOC/meta extractors are translated
  function by function from the source.

Python string methods are modelled for ASCII data (the character classes in
the source's regexes are ASCII), and BeautifulSoup's in-place mutation is
rendered functionally: a pass that mutates the soup and returns `str(soup)`
becomes `serialize ∘ transform ∘ parse`.
-/

/-- Apostrophe character, used in renderer error messages. -/
def aposC : Char := Char.ofNat 39

def aposS : String := String.singleton aposC

-- ---------------------------------------------------------------------------
-- Character helpers (ASCII models of the Python character classes)
-- ---------------------------------------------------------------------------

def isBlankCh (c : Char) : Bool := c = ' ' || c = '\t'

/-- Whitespace as stripped by Python `str.strip()` (ASCII model). -/
def isPyWs (c : Char) : Bool :=
  c = ' ' || c = '\t' || c = '\n' || c = '\r' || Char.ofNat 11 = c || Char.ofNat 12 = c

def isDigitCh (c : Char) : Bool := '0' ≤ c && c ≤ '9'

def isAsciiAlpha (c : Char) : Bool := ('a' ≤ c && c ≤ 'z') || ('A' ≤ c && c ≤ 'Z')

/-- The character class `[0-9A-Za-z _-]` of `_nonword` in the source. -/
def isWordKeep (c : Char) : Bool :=
  isDigitCh c || isAsciiAlpha c || c = ' ' || c = '_' || c = '-'

def lowerCh (c : Char) : Char :=
  if 'A' ≤ c && c ≤ 'Z' then Char.ofNat (c.toNat + 32) else c

def upperCh (c : Char) : Char :=
  if 'a' ≤ c && c ≤ 'z' then Char.ofNat (c.toNat - 32) else c

def dropWhileList (p : Char → Bool) : List Char → List Char
  | [] => []
  | c :: cs => if p c then dropWhileList p cs else c :: cs

def takeWhileList (p : Char → Bool) : List Char → List Char
  | [] => []
  | c :: cs => if p c then c :: takeWhileList p cs else []

/-- Python `str.strip()` on ASCII text. -/
def stripStr (s : String) : String :=
  ⟨((dropWhileList isPyWs s.data).reverse |> dropWhileList isPyWs).reverse⟩

def lowerStr (s : String) : String := ⟨s.data.map lowerCh⟩

/-- Python `str.capitalize()` on ASCII text. -/
def capitalizeStr (s : String) : String :=
  match s.data with
  | [] => ""
  | c :: cs => ⟨upperCh c :: cs.map lowerCh⟩

-- ---------------------------------------------------------------------------
-- `_slugify` (source lines 324-331)
-- ---------------------------------------------------------------------------

/-- `_nonword.sub("", t)`: delete every character outside `[0-9A-Za-z _-]`. -/
def nonwordSub (s : String) : String := ⟨s.data.filter isWordKeep⟩

def isSpaceUnd (c : Char) : Bool := c = ' ' || c = '_'

/-- Run-collapsing scan; the flag records whether we are inside a `[ _]` run
whose replacement hyphen has already been emitted. -/
def collapseGo (inRun : Bool) : List Char → List Char
  | [] => []
  | c :: cs =>
    if isSpaceUnd c then
      if inRun then collapseGo true cs else '-' :: collapseGo true cs
    else c :: collapseGo false cs

/-- `_spaces.sub("-", t)`: each maximal run of `[ _]` becomes a single `-`. -/
def spacesSub (s : String) : String := ⟨collapseGo false s.data⟩

/-- `_slugify` from the source: `t = text.strip().lower()`, then the two
regex substitutions. -/
def slugify (text : String) : String :=
  spacesSub (nonwordSub (lowerStr (stripStr text)))

/-- The slugification pipeline exactly as claim C5 words it: lowercase,
remove characters outside alphanumerics/space/underscore/hyphen, collapse
space/underscore runs to single hyphens (no initial whitespace strip). -/
def slugifyClaimC5 (text : String) : String :=
  spacesSub (nonwordSub (lowerStr text))

/-- The amended description: first strip leading/trailing whitespace, then
lowercase, remove characters outside the kept class, collapse runs. -/
def slugifySpecAmended (text : String) : String :=
  spacesSub (nonwordSub (lowerStr (stripStr text)))

-- ---------------------------------------------------------------------------
-- HTML document model (BeautifulSoup tree over the fragment grammar the
-- plugin manipulates)
-- ---------------------------------------------------------------------------

/-- A parsed HTML node: an element with tag name, attributes (in insertion
order, as in BeautifulSoup's attribute dict) and children, or a text node. -/
inductive Node where
  | text (s : String)
  | elem (tag : String) (attrs : List (String × String)) (children : List Node)

def childrenOf : Node → List Node
  | .text _ => []
  | .elem _ _ ch => ch

def tagOf : Node → String
  | .text _ => ""
  | .elem t _ _ => t

/-- First binding of an attribute name (attribute dicts have unique keys). -/
def attrGet (attrs : List (String × String)) (name : String) : Option String :=
  match attrs.find? (fun kv => kv.1 = name) with
  | some kv => some kv.2
  | none => none

/-- Replace the value of an existing attribute, or append a new one
(Python dict item assignment). -/
def attrSet (attrs : List (String × String)) (name val : String) : List (String × String) :=
  match attrs with
  | [] => [(name, val)]
  | (k, v) :: rest =>
    if k = name then (k, val) :: rest else (k, v) :: attrSet rest name val

/-- Split on ASCII whitespace, dropping empty tokens (how a `class`
attribute string becomes BeautifulSoup's class list). -/
def splitWsGo : List Char → List Char → List String
  | acc, [] => if acc.isEmpty then [] else [⟨acc.reverse⟩]
  | acc, c :: cs =>
    if isPyWs c then
      if acc.isEmpty then splitWsGo [] cs else ⟨acc.reverse⟩ :: splitWsGo [] cs
    else splitWsGo (c :: acc) cs

def splitWS (s : String) : List String := splitWsGo [] s.data

def classListOf (attrs : List (String × String)) : List String :=
  match attrGet attrs "class" with
  | some v => splitWS v
  | none => []

/-- CSS class test `.c` (`c in tag.get("class", [])`). -/
def hasClassA (attrs : List (String × String)) (c : String) : Bool :=
  (classListOf attrs).contains c

def hasClass (n : Node) (c : String) : Bool :=
  match n with
  | .text _ => false
  | .elem _ a _ => hasClassA a c

-- ---------------------------------------------------------------------------
-- Serialization (`str(soup)` / `decode_contents()` with bs4's minimal
-- formatter: `&`, `<`, `>` escaped in text; also `"` in attribute values)
-- ---------------------------------------------------------------------------

def escTextCh (c : Char) : String :=
  if c = '&' then "&amp;" else if c = '<' then "&lt;" else if c = '>' then "&gt;" else String.singleton c

def escText (s : String) : String := String.join (s.data.map escTextCh)

def escAttrCh (c : Char) : String :=
  if c = '&' then "&amp;"
  else if c = '"' then "&quot;"
  else if c = '<' then "&lt;"
  else if c = '>' then "&gt;"
  else String.singleton c

def escAttr (s : String) : String := String.join (s.data.map escAttrCh)

/-- HTML void elements (no closing tag), as known to `html.parser`. -/
def isVoidTag (t : String) : Bool :=
  ["area", "base", "br", "col", "embed", "hr", "img", "input",
   "link", "meta", "param", "source", "track", "wbr"].contains t

def serializeAttrs (attrs : List (String × String)) : String :=
  String.join (attrs.map (fun kv => " " ++ kv.1 ++ "=\"" ++ escAttr kv.2 ++ "\""))

mutual
def serializeNode : Node → String
  | .text s => escText s
  | .elem t a ch =>
    if isVoidTag t then "<" ++ t ++ serializeAttrs a ++ ">"
    else "<" ++ t ++ serializeAttrs a ++ ">" ++ serializeForest ch ++ "</" ++ t ++ ">"
def serializeForest : List Node → String
  | [] => ""
  | n :: rest => serializeNode n ++ serializeForest rest
end

-- ---------------------------------------------------------------------------
-- Parsing (model of `BeautifulSoup(s, "html.parser")` on the plugin's
-- markup fragment; fuel-indexed so that everything computes by `decide`)
-- ---------------------------------------------------------------------------

/-- If `pat` is a leading run of `cs`, return the remainder. -/
def checkLead : List Char → List Char → Option (List Char)
  | [], cs => some cs
  | _, [] => none
  | p :: ps, c :: cs => if p = c then checkLead ps cs else none

/-- Expand one character reference at the head (after a consumed `&`);
unknown references stay literal, as with `html.parser`. -/
def entityAt (cs : List Char) : (List Char × List Char) :=
  match checkLead "amp;".data cs with
  | some r => ('&' :: [], r)
  | none =>
    match checkLead "lt;".data cs with
    | some r => ('<' :: [], r)
    | none =>
      match checkLead "gt;".data cs with
      | some r => ('>' :: [], r)
      | none =>
        match checkLead "quot;".data cs with
        | some r => ('"' :: [], r)
        | none =>
          match checkLead "#39;".data cs with
          | some r => (aposC :: [], r)
          | none => ('&' :: [], cs)

/-- Unescape character references in collected attribute-value text. -/
def unescChars : Nat → List Char → List Char
  | 0, cs => cs
  | _ + 1, [] => []
  | fuel + 1, '&' :: cs =>
    let (e, r) := entityAt cs
    e ++ unescChars fuel r
  | fuel + 1, c :: cs => c :: unescChars fuel cs

/-- A `<` begins markup when followed by a letter (tag), `/` (close tag) or
`!` (declaration/comment); otherwise `html.parser` treats it as text. -/
def ltIsMarkup : List Char → Bool
  | c :: _ => isAsciiAlpha c || c = '/' || c = '!'
  | [] => false

/-- Collect a maximal text run (entities expanded), stopping at markup. -/
def parseTextGo : Nat → List Char → (List Char × List Char)
  | 0, cs => ([], cs)
  | _ + 1, [] => ([], [])
  | fuel + 1, '&' :: cs =>
    let (e, r) := entityAt cs
    let (t, r2) := parseTextGo fuel r
    (e ++ t, r2)
  | fuel + 1, '<' :: cs =>
    if ltIsMarkup cs then ([], '<' :: cs)
    else
      let (t, r2) := parseTextGo fuel cs
      ('<' :: t, r2)
  | fuel + 1, c :: cs =>
    let (t, r2) := parseTextGo fuel cs
    (c :: t, r2)

def isTagNameCh (c : Char) : Bool := isAsciiAlpha c || isDigitCh c || c = '-'

def isAttrNameCh (c : Char) : Bool :=
  !(isPyWs c || c = '=' || c = '>' || c = '/' || c = '<')

/-- Drop characters up to and including the next `>`. -/
def skipPastGt : List Char → List Char
  | [] => []
  | '>' :: cs => cs
  | _ :: cs => skipPastGt cs

/-- Parse the attribute list of an open tag, consuming the closing `>`.
Returns the attributes, whether the tag was self-closing (`/>`), and the
remaining input. -/
def parseAttrsGo : Nat → List Char → (List (String × String) × Bool × List Char)
  | 0, cs => ([], false, cs)
  | _ + 1, [] => ([], false, [])
  | fuel + 1, c :: cs =>
    if isPyWs c then parseAttrsGo fuel cs
    else if c = '>' then ([], false, cs)
    else if c = '/' then
      match cs with
      | '>' :: r => ([], true, r)
      | _ => parseAttrsGo fuel cs
    else
      let nameCs := takeWhileList isAttrNameCh (c :: cs)
      let r1 := dropWhileList isAttrNameCh (c :: cs)
      let name : String := ⟨nameCs.map lowerCh⟩
      let r2 := dropWhileList isPyWs r1
      match r2 with
      | '=' :: r3 =>
        let r4 := dropWhileList isPyWs r3
        match r4 with
        | '"' :: r5 =>
          let vCs := takeWhileList (fun d => d ≠ '"') r5
          let r6 := dropWhileList (fun d => d ≠ '"') r5
          let r7 := match r6 with | '"' :: z => z | z => z
          let (attrs, sc, rest) := parseAttrsGo fuel r7
          ((name, ⟨unescChars (vCs.length + 1) vCs⟩) :: attrs, sc, rest)
        | _ =>
          let vCs := takeWhileList (fun d => !(isPyWs d || d = '>')) r4
          let r5 := dropWhileList (fun d => !(isPyWs d || d = '>')) r4
          let (attrs, sc, rest) := parseAttrsGo fuel r5
          ((name, ⟨unescChars (vCs.length + 1) vCs⟩) :: attrs, sc, rest)
      | _ =>
        let (attrs, sc, rest) := parseAttrsGo fuel r2
        ((name, "") :: attrs, sc, rest)

/-- Parse a sequence of sibling nodes until the close tag `stop` (or end of
input); stray close tags are ignored, as `html.parser` tolerates them. -/
def parseNodesGo : Nat → Option String → List Char → (List Node × List Char)
  | 0, _, cs => ([], cs)
  | _ + 1, _, [] => ([], [])
  | fuel + 1, stop, '<' :: '/' :: cs =>
    let nmCs := takeWhileList isTagNameCh cs
    let nm : String := ⟨nmCs.map lowerCh⟩
    let rest := skipPastGt cs
    if stop = some nm then ([], rest)
    else parseNodesGo fuel stop rest
  | fuel + 1, stop, '<' :: '!' :: cs =>
    parseNodesGo fuel stop (skipPastGt cs)
  | fuel + 1, stop, '<' :: c :: cs =>
    if isAsciiAlpha c then
      let nmCs := takeWhileList isTagNameCh (c :: cs)
      let r1 := dropWhileList isTagNameCh (c :: cs)
      let nm : String := ⟨nmCs.map lowerCh⟩
      let (attrs, selfClose, r2) := parseAttrsGo fuel r1
      if isVoidTag nm || selfClose then
        let (sibs, r3) := parseNodesGo fuel stop r2
        (.elem nm attrs [] :: sibs, r3)
      else
        let (kids, r3) := parseNodesGo fuel (some nm) r2
        let (sibs, r4) := parseNodesGo fuel stop r3
        (.elem nm attrs kids :: sibs, r4)
    else
      let (t, r1) := parseTextGo (fuel + 1) ('<' :: c :: cs)
      let (sibs, r2) := parseNodesGo fuel stop r1
      (if t.isEmpty then sibs else .text ⟨t⟩ :: sibs, r2)
  | fuel + 1, stop, cs =>
    let (t, r1) := parseTextGo (fuel + 1) cs
    let (sibs, r2) := parseNodesGo fuel stop r1
    (if t.isEmpty then sibs else .text ⟨t⟩ :: sibs, r2)

/-- `BeautifulSoup(html, "html.parser")`: the parsed forest. -/
def parseHTML (s : String) : List Node :=
  (parseNodesGo (4 * s.length + 8) none s.data).1

-- ---------------------------------------------------------------------------
-- DOM search helpers (BeautifulSoup `find` / `find_all` / `get_text`)
-- ---------------------------------------------------------------------------

def attrsOf : Node → List (String × String)
  | .text _ => []
  | .elem _ a _ => a

-- `soup.find(...)`: first node matching `p`, in document (pre)order.
mutual
def selNode (p : Node → Bool) : Node → Option Node
  | .text s => if p (.text s) then some (.text s) else none
  | .elem t a ch =>
    if p (.elem t a ch) then some (.elem t a ch) else selForest p ch
def selForest (p : Node → Bool) : List Node → Option Node
  | [] => none
  | n :: rest =>
    match selNode p n with
    | some r => some r
    | none => selForest p rest
end

-- `soup.find_all(...)` / `soup.select(...)`: all matching nodes in
-- document order (matches inside matches included).
mutual
def findAllN (p : Node → Bool) : Node → List Node
  | .text s => if p (.text s) then [.text s] else []
  | .elem t a ch =>
    (if p (.elem t a ch) then [Node.elem t a ch] else []) ++ findAllF p ch
def findAllF (p : Node → Bool) : List Node → List Node
  | [] => []
  | n :: rest => findAllN p n ++ findAllF p rest
end

-- The strings of all text descendants, in document order.
mutual
def textsN : Node → List String
  | .text s => [s]
  | .elem _ _ ch => textsF ch
def textsF : List Node → List String
  | [] => []
  | n :: rest => textsN n ++ textsF rest
end

/-- `tag.get_text(" ", strip=True)`: strip each string, drop the blank
ones, join the rest with single spaces. -/
def getTextSp (n : Node) : String :=
  " ".intercalate (((textsN n).map stripStr).filter (fun s => !s.isEmpty))

-- ---------------------------------------------------------------------------
-- `_build_toc` (source lines 211-235)
-- ---------------------------------------------------------------------------

/-- MkDocs `AnchorLink(title, id_without_hash, children)`. -/
structure Anchor where
  title : String
  id : String
  children : List Anchor

def isHeadingTag (t : String) : Bool :=
  ["h1", "h2", "h3", "h4", "h5", "h6"].contains t

def headingLevel (t : String) : Nat :=
  if t = "h1" then 1 else if t = "h2" then 2 else if t = "h3" then 3
  else if t = "h4" then 4 else if t = "h5" then 5 else 6

/-- The headings `_build_toc` iterates over: every `h1`..`h6` except an
`h1` carrying the `sect0` class (the Asciidoctor document title). -/
def tocHeadings (forest : List Node) : List Node :=
  (findAllF (fun n => isHeadingTag (tagOf n)) forest).filter
    (fun h => !(tagOf h = "h1" && hasClass h "sect0"))

/-- The id the fold reads for a heading: the existing `id` attribute unless
it is missing or empty (`if not h.get("id")`), in which case the slug of
the heading text is assigned. -/
def headingId (h : Node) : String :=
  match attrGet (attrsOf h) "id" with
  | some v => if v = "" then slugify (getTextSp h) else v
  | none => slugify (getTextSp h)

/-- A stack frame of the TOC fold: level, title, id, and the children
collected so far for the still-open node.  The Python code instead appends
the freshly created `AnchorLink` to its parent at creation time and mutates
its `children` in place; attaching the completed node when it is popped
produces the same tree in the same order. -/
def TocFrame := Nat × String × String × List Anchor

/-- `while stack and stack[-1][0] >= level: stack.pop()`.  The fuel is the
stack length, which bounds the number of pops. -/
def tocPops : Nat → Nat → List TocFrame → List Anchor → List Anchor × List TocFrame
  | 0, _, st, items => (items, st)
  | _ + 1, _, [], items => (items, [])
  | fuel + 1, lv, (l, t, i, acc) :: rest, items =>
    if lv ≤ l then
      let a : Anchor := ⟨t, i, acc⟩
      match rest with
      | (l2, t2, i2, acc2) :: more =>
        tocPops fuel lv ((l2, t2, i2, acc2 ++ [a]) :: more) items
      | [] => tocPops fuel lv [] (items ++ [a])
    else (items, (l, t, i, acc) :: rest)

/-- The left-to-right scan of `_build_toc` over `(level, title, id)`
records; at the end the whole stack is drained (level 0 pops everything). -/
def tocRun : List (Nat × String × String) → List Anchor → List TocFrame → List Anchor
  | [], items, st => (tocPops (st.length + 1) 0 st items).1
  | (lv, t, i) :: rest, items, st =>
    let (items2, st2) := tocPops (st.length + 1) lv st items
    tocRun rest items2 ((lv, t, i, []) :: st2)

/-- `_build_toc`: parse, collect headings, synthesize missing ids, fold
with the level stack.  The parse is private to this function: the id
assignments happen on its own soup and are never serialized back. -/
def buildToc (html : String) : List Anchor :=
  let headings := tocHeadings (parseHTML html)
  let recs := headings.map (fun h => (headingLevel (tagOf h), getTextSp h, headingId h))
  tocRun recs [] []

-- ---------------------------------------------------------------------------
-- `_extract_meta_from_html` (source lines 301-310)
-- ---------------------------------------------------------------------------

/-- The `meta` mapping: at most a `title` and a `description` key; a pair
of options models the possibly-missing keys. -/
structure MetaMap where
  title : Option String
  description : Option String

/-- `_extract_meta_from_html`: title from `h1.sect0`, else the first `h1`,
else the first `title` element; description from a
`meta[name=description]` tag with truthy (non-empty) `content`. -/
def extractMetaHtml (html : String) : MetaMap :=
  let soup := parseHTML html
  let titleEl :=
    match selForest (fun n => tagOf n = "h1" && hasClass n "sect0") soup with
    | some e => some e
    | none =>
      match selForest (fun n => tagOf n = "h1") soup with
      | some e => some e
      | none => selForest (fun n => tagOf n = "title") soup
  let descEl := selForest
    (fun n => tagOf n = "meta" && attrGet (attrsOf n) "name" = some "description") soup
  { title := titleEl.map getTextSp
    description :=
      match descEl with
      | some d =>
        match attrGet (attrsOf d) "content" with
        | some c => if c = "" then none else some c
        | none => none
      | none => none }

/-- The extractor as claim C9 words it: the second fallback is the first
heading element of any level, not specifically the first `h1`. -/
def extractMetaClaimC9 (html : String) : MetaMap :=
  let soup := parseHTML html
  let titleEl :=
    match selForest (fun n => tagOf n = "h1" && hasClass n "sect0") soup with
    | some e => some e
    | none =>
      match selForest (fun n => isHeadingTag (tagOf n)) soup with
      | some e => some e
      | none => selForest (fun n => tagOf n = "title") soup
  let descEl := selForest
    (fun n => tagOf n = "meta" && attrGet (attrsOf n) "name" = some "description") soup
  { title := titleEl.map getTextSp
    description :=
      match descEl with
      | some d =>
        match attrGet (attrsOf d) "content" with
        | some c => if c = "" then none else some c
        | none => none
      | none => none }

/-- The extractor as amended: precedence is `h1.sect0`, else the first
`h1` element, else the first `title` element. -/
def extractMetaSpecAmended (html : String) : MetaMap :=
  let soup := parseHTML html
  let titleEl :=
    match selForest (fun n => tagOf n = "h1" && hasClass n "sect0") soup with
    | some e => some e
    | none =>
      match selForest (fun n => tagOf n = "h1") soup with
      | some e => some e
      | none => selForest (fun n => tagOf n = "title") soup
  let descEl := selForest
    (fun n => tagOf n = "meta" && attrGet (attrsOf n) "name" = some "description") soup
  { title := titleEl.map getTextSp
    description :=
      match descEl with
      | some d =>
        match attrGet (attrsOf d) "content" with
        | some c => if c = "" then none else some c
        | none => none
      | none => none }

-- ---------------------------------------------------------------------------
-- `_escape`, `_run_asciidoctor`, `_render_adoc_cached`
-- (source lines 184-209, 171-182, 314-322)
-- ---------------------------------------------------------------------------

/-- `_escape`: `s.replace("&","&amp;").replace("<","&lt;").replace(">","&gt;")`.
The three sequential replacements never rewrite each other's output, so a
single character-wise pass is equivalent. -/
def pyEscape (s : String) : String := String.join (s.data.map escTextCh)

/-- Outcome of `subprocess.run` for the asciidoctor invocation: executable
missing (`FileNotFoundError`), non-zero exit (`CalledProcessError` with its
stderr), or success with the decoded stdout. -/
inductive ProcResult where
  | notFound
  | exitErr (stderr : String)
  | ok (stdout : String)

def notFoundMsg (cmd : String) : String :=
  "Asciidoctor not found: " ++ aposS ++ cmd ++ aposS ++
    ". Install with: gem install asciidoctor"

def failedMsg (src stderr : String) : String :=
  "Asciidoctor failed for " ++ src ++ ":\n" ++ stderr

/-- `_run_asciidoctor` with the child-process behaviour as an explicit
parameter; `raise SystemExit(msg)` (fail-fast abort of the whole build)
is `Except.error msg`. -/
def runAsciidoctor (cmd src : String) (failFast : Bool) (proc : ProcResult) :
    Except String (String × MetaMap) :=
  match proc with
  | .notFound =>
    if failFast then .error (notFoundMsg cmd)
    else .ok ("<pre>" ++ pyEscape (notFoundMsg cmd) ++ "</pre>", ⟨none, none⟩)
  | .exitErr stderr =>
    if failFast then .error (failedMsg src stderr)
    else .ok ("<pre>" ++ pyEscape (failedMsg src stderr) ++ "</pre>", ⟨none, none⟩)
  | .ok stdout => .ok (stdout, extractMetaHtml stdout)

/-- The `Rendered` dataclass. -/
structure Rendered where
  html : String
  toc : List Anchor
  meta : MetaMap

/-- `self._cache`: dict from source path to (mtime, sha1, Rendered),
modelled as an association list with unique keys.  The file modification
time is a Python float compared only for equality; an `Int` stands in for
it. -/
def Cache := List (String × (Int × String × Rendered))

def cacheGet (c : Cache) (k : String) : Option (Int × String × Rendered) :=
  match c with
  | [] => none
  | (k2, v) :: rest => if k2 = k then some v else cacheGet rest k

def cacheSet (c : Cache) (k : String) (v : Int × String × Rendered) : Cache :=
  match c with
  | [] => [(k, v)]
  | (k2, v2) :: rest =>
    if k2 = k then (k2, v) :: rest else (k2, v2) :: cacheSet rest k v

/-- `_render_adoc_cached`.  `key`, `mtime` and `sha1` are the current file
state (`str(src_path)`, `stat().st_mtime`, `_sha1_file`); the returned
`Bool` records whether the renderer child process was invoked.  A cached
entry is returned as-is when both the stored mtime and the stored digest
equal the current ones; otherwise the renderer runs and whatever it
returns (including the non-fatal error placeholder) is stored under the
key and returned. -/
def renderAdocCached (proc : ProcResult) (cmd : String) (failFast : Bool)
    (cache : Cache) (key : String) (mtime : Int) (sha1 : String) :
    Except String (Rendered × Cache × Bool) :=
  let miss : Except String (Rendered × Cache × Bool) :=
    match runAsciidoctor cmd key failFast proc with
    | .error e => .error e
    | .ok (html, meta) =>
      let r : Rendered := ⟨html, buildToc html, meta⟩
      .ok (r, cacheSet cache key (mtime, sha1, r), true)
  match cacheGet cache key with
  | some (m, s, r) => if m = mtime && s = sha1 then .ok (r, cache, false) else miss
  | none => miss

-- ---------------------------------------------------------------------------
-- `_admonitions_to_material` (source lines 237-254)
-- ---------------------------------------------------------------------------

-- `title_el.extract()`: remove the first node matching `p` (found in
-- pre-order, like `select_one`) together with its subtree.  The `Bool`
-- reports whether a removal happened.
mutual
def remFirstN (p : Node → Bool) : Node → (Node × Bool)
  | .text s => (.text s, false)
  | .elem t a ch =>
    let (ch2, b) := remFirstF p ch
    (.elem t a ch2, b)
def remFirstF (p : Node → Bool) : List Node → (List Node × Bool)
  | [] => ([], false)
  | n :: rest =>
    if p n then (rest, true)
    else
      let (n2, b) := remFirstN p n
      if b then (n2 :: rest, true)
      else
        let (r, b2) := remFirstF p rest
        (n :: r, b2)
end

/-- The closed set of admonition kinds.  The Python source iterates a
`set` literal whose order is interpreter-dependent; this list order is a
deterministic model of it (relevant only if a block carries several kind
classes at once, which Asciidoctor never emits). -/
def kindsList : List String := ["note", "tip", "important", "caution", "warning"]

/-- `next((k for k in kinds if k in classes), "note")`. -/
def pickKind (classes : List String) : String :=
  (kindsList.find? (fun k => classes.contains k)).getD "note"

/-- One admonition block rewrite plus recursion into the moved content
(the Python loop processes nested `div.admonitionblock` occurrences found
by the up-front `select`, which my top-down recursion mirrors).  The fuel
only needs to exceed the node's depth, since every recursive call descends
to strict descendants. -/
def admTF : Nat → Node → Node
  | 0, n => n
  | _ + 1, .text s => .text s
  | fuel + 1, .elem t a ch =>
    if t = "div" && hasClassA a "admonitionblock" then
      let blk := Node.elem t a ch
      let kind := pickKind (classListOf a)
      let content := (selForest (fun m => hasClass m "content") ch).getD blk
      let titleEl := selForest (fun m => hasClass m "title") (childrenOf content)
      let titleText :=
        match titleEl with
        | some te => getTextSp te
        | none => capitalizeStr kind
      let content2 :=
        match titleEl with
        | some _ =>
          match content with
          | .elem ct ca cch =>
            Node.elem ct ca (remFirstF (fun m => hasClass m "title") cch).1
          | .text s => Node.text s
        | none => content
      let titleP := Node.elem "p" [("class", "admonition-title")] [.text titleText]
      Node.elem "div" [("class", "admonition " ++ kind)]
        (titleP :: (childrenOf content2).map (admTF fuel))
    else Node.elem t a (ch.map (admTF fuel))

-- Tree depth, used to seed the admonition-pass fuel.
mutual
def ndepth : Node → Nat
  | .text _ => 1
  | .elem _ _ ch => 1 + fdepth ch
def fdepth : List Node → Nat
  | [] => 0
  | n :: r => max (ndepth n) (fdepth r)
end

def admTransForest (f : List Node) : List Node :=
  f.map (fun n => admTF (ndepth n) n)

/-- `_admonitions_to_material` as a string pass:
`str(transform(BeautifulSoup(html)))`. -/
def admonitionsToMaterial (html : String) : String :=
  serializeForest (admTransForest (parseHTML html))

-- ---------------------------------------------------------------------------
-- `_callout_table_to_ol` (source lines 256-275)
-- ---------------------------------------------------------------------------

/-- `tr.find_all("td")`. -/
def rowTds (tr : Node) : List Node :=
  findAllF (fun n => tagOf n = "td") (childrenOf tr)

/-- The body of the row loop: `None` when the row has fewer than two
cells (`continue`), otherwise the `<li>` holding the re-parsed serialized
contents of the row's second cell
(`BeautifulSoup(tds[1].decode_contents(), ...)`). -/
def rowLiOpt (tr : Node) : Option Node :=
  if (rowTds tr).length < 2 then none
  else
    match (rowTds tr)[1]? with
    | some td => some (Node.elem "li" [] (parseHTML (serializeForest (childrenOf td))))
    | none => none

/-- Whether a row qualifies (at least two cells). -/
def rowOk (tr : Node) : Bool := decide (2 ≤ (rowTds tr).length)

/-- The list item a qualifying row becomes. -/
def rowLi (tr : Node) : Node :=
  Node.elem "li" []
    (parseHTML (serializeForest (childrenOf (((rowTds tr)[1]?).getD (Node.text "")))))

/-- Build the `<ol class="colist">` replacing a callout table with the
given children: one `<li>` per `tr` row, in row order. -/
def olOfTable (tableChildren : List Node) : Node :=
  Node.elem "ol" [("class", "colist")]
    ((findAllF (fun n => tagOf n = "tr") tableChildren).filterMap rowLiOpt)

-- `_callout_table_to_ol` tree walk.  Inside a `div.colist`, `replWalk`
-- replaces the first `table` descendant (in pre-order, like
-- `colist.find("table")`) with the ordered list built from it — unless
-- that table has no `tr` rows, in which case the div is skipped
-- (`if not rows: continue`) — while still processing nested `div.colist`
-- occurrences elsewhere, which the Python loop reaches through its
-- up-front `select("div.colist")` list.
mutual
def colistN : Node → Node
  | .text s => .text s
  | .elem t a ch =>
    if t = "div" && hasClassA a "colist" then .elem t a (replWalk ch).1
    else .elem t a (colistF ch)
def colistF : List Node → List Node
  | [] => []
  | n :: rest => colistN n :: colistF rest
def replWalk : List Node → (List Node × Bool)
  | [] => ([], false)
  | .text s :: rest =>
    let (r, b) := replWalk rest
    (.text s :: r, b)
  | .elem t a ch :: rest =>
    if t = "table" then
      if (findAllF (fun m => tagOf m = "tr") ch).isEmpty then
        -- `continue`: the rows are empty, the table stays (a table is not
        -- a `div.colist`, so `colistN` on it just recurses, inlined here
        -- to keep the recursion structural)
        (.elem t a (colistF ch) :: colistF rest, true)
      else (olOfTable ch :: colistF rest, true)
    else
      let (ch2, b) := replWalk ch
      if b then (.elem t a ch2 :: colistF rest, true)
      else
        -- no table in this subtree: `colistN` on the head, inlined
        -- (`(replWalk ch).1` is `ch2`, already computed)
        let (r, b2) := replWalk rest
        let hd := if t = "div" && hasClassA a "colist" then Node.elem t a ch2
                  else Node.elem t a (colistF ch)
        (hd :: r, b2)
end

/-- `_callout_table_to_ol` as a string pass. -/
def calloutTableToOl (html : String) : String :=
  serializeForest (colistF (parseHTML html))

-- ---------------------------------------------------------------------------
-- `_strip_conum_from_code` (source lines 277-299)
-- ---------------------------------------------------------------------------

/-- `.conum:not([data-value])`: a callout marker without the machine
readable value attribute (the textual fallback form). -/
def isConumNoVal (n : Node) : Bool :=
  hasClass n "conum" && (attrGet (attrsOf n) "data-value").isNone

/-- `.conum[data-value]`. -/
def isConumVal (n : Node) : Bool :=
  hasClass n "conum" && (attrGet (attrsOf n) "data-value").isSome

-- `node.decompose()` for every descendant matching `p`.
mutual
def rmAllN (p : Node → Bool) : Node → Node
  | .text s => .text s
  | .elem t a ch => .elem t a (rmAllF p ch)
def rmAllF (p : Node → Bool) : List Node → List Node
  | [] => []
  | n :: rest =>
    if p n then rmAllF p rest
    else rmAllN p n :: rmAllF p rest
end

-- `node.clear(); node["aria-hidden"] = "true"` for every descendant
-- matching `p` (children dropped, attribute set, node kept).
mutual
def clearMarkN (p : Node → Bool) : Node → Node
  | .text s => .text s
  | .elem t a ch =>
    if p (.elem t a ch) then .elem t (attrSet a "aria-hidden" "true") []
    else .elem t a (clearMarkF p ch)
def clearMarkF (p : Node → Bool) : List Node → List Node
  | [] => []
  | n :: rest => clearMarkN p n :: clearMarkF p rest
end

/-- One attempt of the regex
`[ \t]*(\(\d+\)|<\d+>)[ \t]*(?=\n|$)` (multiline) at the head of the
input: on success, the remainder after the consumed match (the lookahead
is not consumed).  Greedy matching of the character classes needs no
backtracking here, since no alternative continuation can succeed. -/
def tryConMatch (cs : List Char) : Option (List Char) :=
  let r1 := dropWhileList isBlankCh cs
  match r1 with
  | '(' :: r2 =>
    let ds := takeWhileList isDigitCh r2
    let r3 := dropWhileList isDigitCh r2
    if ds.isEmpty then none
    else
      match r3 with
      | ')' :: r4 =>
        let r5 := dropWhileList isBlankCh r4
        match r5 with
        | [] => some []
        | '\n' :: _ => some r5
        | _ => none
      | _ => none
  | '<' :: r2 =>
    let ds := takeWhileList isDigitCh r2
    let r3 := dropWhileList isDigitCh r2
    if ds.isEmpty then none
    else
      match r3 with
      | '>' :: r4 =>
        let r5 := dropWhileList isBlankCh r4
        match r5 with
        | [] => some []
        | '\n' :: _ => some r5
        | _ => none
      | _ => none
  | _ => none

/-- `re.sub(pattern, "", raw, flags=re.M)`: left-to-right scan deleting
every non-overlapping match.  Every successful match consumes at least
three characters, so the input length bounds the steps. -/
def conumStripGo : Nat → List Char → List Char
  | 0, cs => cs
  | _ + 1, [] => []
  | fuel + 1, c :: cs =>
    match tryConMatch (c :: cs) with
    | some rest => conumStripGo fuel rest
    | none => c :: conumStripGo fuel cs

def conumStripStr (s : String) : String := ⟨conumStripGo (s.length + 1) s.data⟩

/-- The body of the `for pre in soup.select("div.listingblock pre")` loop:
decompose value-less markers, clear and hide valued markers, then strip
trailing `(n)` / `<n>` patterns from the serialized contents, re-parsing
them if the regex changed anything. -/
def processPre : Node → Node
  | .text s => .text s
  | .elem t a ch =>
    let ch1 := rmAllF isConumNoVal ch
    let ch2 := clearMarkF isConumVal ch1
    let raw := serializeForest ch2
    let cleaned := conumStripStr raw
    if cleaned = raw then .elem t a ch2
    else .elem t a (parseHTML cleaned)

-- The `div.listingblock pre` descendant-selector walk: the flag records
-- whether an ancestor is a `div.listingblock`.
mutual
def stripN (inLB : Bool) : Node → Node
  | .text s => .text s
  | .elem t a ch =>
    if inLB && t = "pre" then processPre (.elem t a ch)
    else
      .elem t a (stripF (inLB || (t = "div" && hasClassA a "listingblock")) ch)
def stripF (inLB : Bool) : List Node → List Node
  | [] => []
  | n :: rest => stripN inLB n :: stripF inLB rest
end

/-- `_strip_conum_from_code` as a string pass. -/
def stripConumFromCode (html : String) : String :=
  serializeForest (stripF false (parseHTML html))

-- ---------------------------------------------------------------------------
-- `on_page_content` (source lines 157-167): the HTML Normalizer
-- ---------------------------------------------------------------------------

/-- The three normalizer passes in the order `on_page_content` applies
them. -/
def normalizeHtml (html : String) : String :=
  stripConumFromCode (calloutTableToOl (admonitionsToMaterial html))

/-- The page body `on_page_content` returns for an AsciiDoc page: the
cached document's html pushed through the Normalizer (the TOC is attached
to the page separately, from `rendered.toc`). -/
def onPageContentHtml (r : Rendered) : String := normalizeHtml r.html

-- ---------------------------------------------------------------------------
-- Plain-text extraction and substring search (for copy-safety statements)
-- ---------------------------------------------------------------------------

/-- `tag.get_text()` with default arguments: the concatenation of all text
descendants. -/
def plainText (forest : List Node) : String := String.join (textsF forest)

def containsChs (needle : List Char) : List Char → Bool
  | [] => (checkLead needle ([] : List Char)).isSome
  | c :: cs => (checkLead needle (c :: cs)).isSome || containsChs needle cs

/-- `needle in hay` on strings. -/
def containsSub (hay needle : String) : Bool := containsChs needle.data hay.data

-- ---------------------------------------------------------------------------
-- Concrete inputs used by the claim theorems
-- ---------------------------------------------------------------------------

/-- Renderer output with headings at levels 1 (document title, class
`sect0`), 2, 3, 2, 4 — the TOC nesting example. -/
def tocExample : String :=
  "<h1 class=\"sect0\">Doc</h1><h2 id=\"a\">A</h2><h3 id=\"b\">B</h3><h2 id=\"c\">C</h2><h4 id=\"d\">D</h4>"

/-- The callout table of the spec's round-trip example: rows
("1","Install deps") and ("2","Run build"). -/
def colistExample : String :=
  "<div class=\"colist\"><table><tr><td>1</td><td>Install deps</td></tr><tr><td>2</td><td>Run build</td></tr></table></div>"

/-- The same callout table with a malformed third row holding a single
cell. -/
def colistMalformed : String :=
  "<div class=\"colist\"><table><tr><td>1</td><td>Install deps</td></tr><tr><td>2</td><td>Run build</td></tr><tr><td>x</td></tr></table></div>"

/-- A listing whose code line ends in a literal `<1>` (Asciidoctor escapes
it to `&lt;1&gt;` in its HTML output). -/
def listingLtOne : String :=
  "<div class=\"listingblock\"><pre>foo(); &lt;1&gt;\n</pre></div>"

/-- The `(1)` twin of `listingLtOne`. -/
def listingParenOne : String :=
  "<div class=\"listingblock\"><pre>foo(); (1)\n</pre></div>"

/-- A listing with a valued callout marker and its textual fallback. -/
def listingConum : String :=
  "<div class=\"listingblock\"><pre>foo(); <i class=\"conum\" data-value=\"1\"></i><b class=\"conum\">(1)</b>\n</pre></div>"

/-- A listing line ending in two stacked callout markers: only the last is
at end of line, so one normalizer run strips only `(2)`, exposing `(1)` at
end of line for a second run. -/
def listingStacked : String :=
  "<div class=\"listingblock\"><pre>foo (1)(2)\n</pre></div>"

/-- Asciidoctor admonition markup (icon cell, content cell with title). -/
def admonitionExample : String :=
  "<div class=\"admonitionblock note\"><table><tr><td class=\"icon\"><div class=\"title\">Note</div></td><td class=\"content\"><div class=\"title\">My Title</div><p>Body text</p></td></tr></table></div>"

/-- The target-theme form `admonitionExample` normalizes to. -/
def admonitionTarget : String :=
  "<div class=\"admonition note\"><p class=\"admonition-title\">My Title</p><p>Body text</p></div>"

/-- A document whose only heading is an `h2`, followed by a `title`
element: separates "first h1" from "first heading element". -/
def metaExample : String := "<h2>Foo</h2><title>Bar</title>"

/-- Renderer output with a single id-less `h2` heading. -/
def headingNoId : String := "<h2>My Heading</h2><p>text</p>"

/-- A sample rendered document for cache theorems. -/
def sampleRendered : Rendered := ⟨"<p>x</p>", [], ⟨none, none⟩⟩

/-- The placeholder document produced (and, as it turns out, cached) when
the renderer executable is missing and fail-fast is off. -/
def notFoundPlaceholder : Rendered :=
  ⟨"<pre>" ++ pyEscape (notFoundMsg "asciidoctor") ++ "</pre>", [], ⟨none, none⟩⟩

/-- The fresh document built for `headingNoId` on a cache miss. -/
def headingRendered : Rendered :=
  ⟨headingNoId, buildToc headingNoId, extractMetaHtml headingNoId⟩

-- ---------------------------------------------------------------------------
-- Helper lemmas
-- ---------------------------------------------------------------------------

theorem cacheGet_cacheSet (c : Cache) (k : String) (v : Int × String × Rendered) :
    cacheGet (cacheSet c k v) k = some v := by
  induction c with
  | nil => simp [cacheSet, cacheGet]
  | cons hd tl ih =>
    obtain ⟨k2, v2⟩ := hd
    by_cases h : k2 = k
    · simp [cacheSet, cacheGet, h]
    · simp [cacheSet, cacheGet, h, ih]

theorem filterMap_guard {α β : Type} (p : α → Bool) (g : α → β) (l : List α) :
    l.filterMap (fun x => if p x then some (g x) else none) =
      (l.filter p).map g := by
  induction l with
  | nil => rfl
  | cons hd tl ih =>
    by_cases h : p hd
    · simp [List.filterMap_cons, List.filter_cons, h, ih]
    · simp [List.filterMap_cons, List.filter_cons, h, ih]

-- ---------------------------------------------------------------------------
-- Claim theorems
-- ---------------------------------------------------------------------------

/-- C4: `_build_toc` realizes the stack-based nesting scan: on renderer
output with headings at levels [1 (class `sect0`, excluded as the document
title), 2, 3, 2, 4], exactly the four section headings survive the filter,
and the resulting forest has two top-level nodes, the first with the
level-3 heading as its only child and the second with the level-4 heading
as its only child. -/
theorem buildToc_nesting_example :
    tocHeadings (parseHTML tocExample) =
      [Node.elem "h2" [("id", "a")] [.text "A"],
       Node.elem "h3" [("id", "b")] [.text "B"],
       Node.elem "h2" [("id", "c")] [.text "C"],
       Node.elem "h4" [("id", "d")] [.text "D"]]
    ∧ buildToc tocExample =
      [⟨"A", "a", [⟨"B", "b", []⟩]⟩, ⟨"C", "c", [⟨"D", "d", []⟩]⟩] :=
  ⟨rfl, rfl⟩

/-- C5 counterexample: the claim describes `_slugify` as lowercasing,
filtering and run-collapsing only, but the source first strips surrounding
whitespace; on the input " a" the described pipeline gives "-a" while the
function gives "a". -/
theorem slugify_claim_counterexample :
    slugify " a" ≠ slugifyClaimC5 " a"
    ∧ slugify " a" = "a" ∧ slugifyClaimC5 " a" = "-a" := by
  refine ⟨?_, by decide, by decide⟩
  decide

/-- C5 (amended): `_slugify` first strips leading/trailing whitespace, then
lowercases, removes characters outside alphanumerics/space/underscore/
hyphen, and collapses space/underscore runs to single hyphens; in
particular "Getting Started, Fast!" maps to "getting-started-fast" and
punctuation-only text maps to the empty string. -/
theorem slugify_amended :
    (∀ s, slugify s = slugifySpecAmended s)
    ∧ slugify "Getting Started, Fast!" = "getting-started-fast"
    ∧ slugify ",!?" = "" :=
  ⟨fun _ => rfl, by decide, by decide⟩

/-- C3: when the renderer executable is missing, `_run_asciidoctor` aborts
the build (`SystemExit`) with a descriptive message if fail-fast is on,
and otherwise returns a non-empty `pre` fragment holding the escaped
message together with empty metadata; a non-zero exit gets the same
branching, with the captured stderr included in the message. -/
theorem runAsciidoctor_failfast_branching (cmd src stderr : String) :
    runAsciidoctor cmd src true .notFound = .error (notFoundMsg cmd)
    ∧ runAsciidoctor cmd src false .notFound =
        .ok ("<pre>" ++ pyEscape (notFoundMsg cmd) ++ "</pre>", ⟨none, none⟩)
    ∧ runAsciidoctor cmd src true (.exitErr stderr) = .error (failedMsg src stderr)
    ∧ runAsciidoctor cmd src false (.exitErr stderr) =
        .ok ("<pre>" ++ pyEscape (failedMsg src stderr) ++ "</pre>", ⟨none, none⟩)
    ∧ notFoundMsg cmd = "Asciidoctor not found: " ++ aposS ++ cmd ++ aposS ++
        ". Install with: gem install asciidoctor"
    ∧ failedMsg src stderr = "Asciidoctor failed for " ++ src ++ ":\n" ++ stderr
    ∧ "<pre>" ++ pyEscape (notFoundMsg cmd) ++ "</pre>" ≠ ""
    ∧ "<pre>" ++ pyEscape (failedMsg src stderr) ++ "</pre>" ≠ "" := by
  refine ⟨rfl, rfl, rfl, rfl, rfl, rfl, ?_, ?_⟩ <;>
    · intro h
      have := congrArg String.data h
      simp [String.data_append] at this

set_option maxRecDepth 8000 in
/-- C2 counterexample: with fail-fast off and the executable missing, the
first `_render_adoc_cached` call returns the placeholder AND stores it in
the cache; the second call for the unchanged file returns the placeholder
from the cache without invoking the renderer again — contradicting the
claim that no placeholder is cached and every attempt retries. -/
theorem placeholder_cached_counterexample :
    renderAdocCached .notFound "asciidoctor" false [] "doc.adoc" 1 "s"
      = .ok (notFoundPlaceholder,
             [("doc.adoc", (1, "s", notFoundPlaceholder))], true)
    ∧ renderAdocCached .notFound "asciidoctor" false
        [("doc.adoc", (1, "s", notFoundPlaceholder))] "doc.adoc" 1 "s"
      = .ok (notFoundPlaceholder,
             [("doc.adoc", (1, "s", notFoundPlaceholder))], false) := by
  constructor <;> rfl

/-- C2 (amended): a non-fatal renderer failure's placeholder result IS
stored in the cache like any successful render, so a subsequent call for
the same unchanged file returns the cached placeholder without invoking
the renderer again. -/
theorem placeholder_cached_amended (cmd key : String) (mtime : Int) (sha1 : String)
    (cache : Cache) (proc : ProcResult)
    (hfail : proc = .notFound ∨ ∃ e, proc = .exitErr e)
    (hmiss : cacheGet cache key = none) :
    ∃ r : Rendered, r.meta = ⟨none, none⟩
      ∧ renderAdocCached proc cmd false cache key mtime sha1
          = .ok (r, cacheSet cache key (mtime, sha1, r), true)
      ∧ renderAdocCached proc cmd false
            (cacheSet cache key (mtime, sha1, r)) key mtime sha1
          = .ok (r, cacheSet cache key (mtime, sha1, r), false) := by
  have second : ∀ r : Rendered,
      renderAdocCached proc cmd false (cacheSet cache key (mtime, sha1, r)) key mtime sha1
        = .ok (r, cacheSet cache key (mtime, sha1, r), false) := by
    intro r
    simp [renderAdocCached, cacheGet_cacheSet]
  rcases hfail with h | ⟨e, h⟩ <;> subst h
  · exact ⟨⟨"<pre>" ++ pyEscape (notFoundMsg cmd) ++ "</pre>",
        buildToc ("<pre>" ++ pyEscape (notFoundMsg cmd) ++ "</pre>"), ⟨none, none⟩⟩,
      rfl, by simp [renderAdocCached, hmiss, runAsciidoctor], second _⟩
  · exact ⟨⟨"<pre>" ++ pyEscape (failedMsg key e) ++ "</pre>",
        buildToc ("<pre>" ++ pyEscape (failedMsg key e) ++ "</pre>"), ⟨none, none⟩⟩,
      rfl, by simp [renderAdocCached, hmiss, runAsciidoctor], second _⟩

/-- Witness for the amended C2 theorem at a concrete missing-renderer
invocation on an empty cache. -/
theorem placeholder_cached_amended_witness :
    ∃ r : Rendered, r.meta = ⟨none, none⟩
      ∧ renderAdocCached .notFound "asciidoctor" false [] "doc.adoc" 1 "s"
          = .ok (r, cacheSet [] "doc.adoc" (1, "s", r), true)
      ∧ renderAdocCached .notFound "asciidoctor" false
            (cacheSet [] "doc.adoc" (1, "s", r)) "doc.adoc" 1 "s"
          = .ok (r, cacheSet [] "doc.adoc" (1, "s", r), false) :=
  placeholder_cached_amended "asciidoctor" "doc.adoc" 1 "s" [] .notFound (Or.inl rfl) rfl

/-- C1: `_render_adoc_cached` returns the stored document without invoking
the renderer exactly when the current mtime and digest both equal the
stored entry's fields; on a missing or stale entry it invokes the
renderer, builds a fresh `Rendered` (html, TOC from that html, meta) and
stores it under the path. -/
theorem render_cache_hit_iff (proc : ProcResult) (cmd : String) (failFast : Bool)
    (cache : Cache) (key : String) (mtime : Int) (sha1 : String) :
    (∀ m s r, cacheGet cache key = some (m, s, r) → m = mtime → s = sha1 →
      renderAdocCached proc cmd failFast cache key mtime sha1 = .ok (r, cache, false))
    ∧ (∀ html meta,
        runAsciidoctor cmd key failFast proc = .ok (html, meta) →
        (∀ m s r, cacheGet cache key = some (m, s, r) → ¬(m = mtime ∧ s = sha1)) →
        renderAdocCached proc cmd failFast cache key mtime sha1 =
          .ok (⟨html, buildToc html, meta⟩,
               cacheSet cache key (mtime, sha1, ⟨html, buildToc html, meta⟩), true))
    ∧ (∀ r c, renderAdocCached proc cmd failFast cache key mtime sha1 = .ok (r, c, false) →
        cacheGet cache key = some (mtime, sha1, r) ∧ c = cache) := by
  refine ⟨?_, ?_, ?_⟩
  · intro m s r hget hm hs
    subst hm; subst hs
    simp [renderAdocCached, hget]
  · intro html meta hrun hstale
    cases hget : cacheGet cache key with
    | none => simp [renderAdocCached, hget, hrun]
    | some v =>
      obtain ⟨m, s, r⟩ := v
      have hne : ¬(m = mtime ∧ s = sha1) := hstale m s r hget
      have hcond : (decide (m = mtime) && decide (s = sha1)) = false := by
        rcases Decidable.em (m = mtime) with hm | hm <;>
          rcases Decidable.em (s = sha1) with hs | hs <;>
            simp [hm, hs] at hne ⊢
      simp [renderAdocCached, hget, hrun, hcond]
  · intro r c hres
    cases hget : cacheGet cache key with
    | none =>
      rw [renderAdocCached] at hres
      simp [hget] at hres
      cases hrun : runAsciidoctor cmd key failFast proc with
      | error e => simp [hrun] at hres
      | ok v => obtain ⟨html, meta⟩ := v; simp [hrun] at hres
    | some v =>
      obtain ⟨m, s, r2⟩ := v
      rw [renderAdocCached] at hres
      by_cases hcond : m = mtime ∧ s = sha1
      · obtain ⟨hm, hs⟩ := hcond
        subst hm; subst hs
        simp [hget] at hres
        obtain ⟨h1, h2⟩ := hres
        constructor <;> simp_all
      · have hcondb : (decide (m = mtime) && decide (s = sha1)) = false := by
          rcases Decidable.em (m = mtime) with hm | hm <;>
            rcases Decidable.em (s = sha1) with hs | hs <;>
              simp [hm, hs] at hcond ⊢
        simp [hget, hcondb] at hres
        cases hrun : runAsciidoctor cmd key failFast proc with
        | error e => simp [hrun] at hres
        | ok v => obtain ⟨html, meta⟩ := v; simp [hrun] at hres

/-- Witness for C1 at a concrete valid cache entry: the stored document is
returned, the cache is unchanged, the renderer is not run. -/
theorem render_cache_hit_iff_witness :
    renderAdocCached (.ok "<p>x</p>") "asciidoctor" true
      [("k", (5, "h", sampleRendered))] "k" 5 "h"
      = .ok (sampleRendered, [("k", (5, "h", sampleRendered))], false) :=
  (render_cache_hit_iff (.ok "<p>x</p>") "asciidoctor" true
      [("k", (5, "h", sampleRendered))] "k" 5 "h").1 5 "h" sampleRendered rfl rfl rfl

/-- C6: the callout-table rewrite produces exactly one list item per table
row with at least two cells, in original row order, each item holding the
second cell's inner markup; rows with fewer than two cells are skipped
without error.  The general equation exhibits the items as a
filter-then-map over the rows; the two concrete conjuncts run the spec's
two-row round-trip example and its malformed-row variant. -/
theorem callout_table_rewrite :
    (∀ tableChildren : List Node,
      childrenOf (olOfTable tableChildren) =
        (((findAllF (fun n => tagOf n = "tr") tableChildren).filter rowOk).map rowLi))
    ∧ calloutTableToOl colistExample =
        "<div class=\"colist\"><ol class=\"colist\"><li>Install deps</li><li>Run build</li></ol></div>"
    ∧ calloutTableToOl colistMalformed =
        "<div class=\"colist\"><ol class=\"colist\"><li>Install deps</li><li>Run build</li></ol></div>" := by
  refine ⟨?_, by decide, by decide⟩
  intro tableChildren
  have hpoint : ∀ tr : Node,
      rowLiOpt tr = if rowOk tr then some (rowLi tr) else none := by
    intro tr
    by_cases h : (rowTds tr).length < 2
    · have : ¬ (2 ≤ (rowTds tr).length) := Nat.not_le.mpr h
      simp [rowLiOpt, rowOk, h, this]
    · have h2 : 2 ≤ (rowTds tr).length := Nat.not_lt.mp h
      have h1 : 1 < (rowTds tr).length := h2
      rw [rowLiOpt, List.getElem?_eq_getElem h1]
      simp [rowOk, rowLi, h, h2, List.getElem?_eq_getElem h1]
  have hfe : rowLiOpt = fun tr => if rowOk tr then some (rowLi tr) else none :=
    funext hpoint
  show (findAllF (fun n => tagOf n = "tr") tableChildren).filterMap rowLiOpt = _
  rw [hfe, filterMap_guard]

set_option maxRecDepth 8000 in
/-- C7: evaluation of `_strip_conum_from_code` at the claim's failing
input.  A listing line ending in a literal `<1>` (which Asciidoctor's
output carries as `&lt;1&gt;`) is NOT sanitized: the serialized contents
the regex scans re-escape the text, so the `<\d+>` alternative can never
match, the listing is returned unchanged, and the extracted plain text
still contains `<1>` — contradicting the claim and the function's own
docstring.  The `(n)` twin IS stripped, and valued `.conum` markers are
emptied, marked `aria-hidden` and kept while value-less ones are removed,
as claimed. -/
theorem conum_literal_angle_not_stripped :
    stripConumFromCode listingLtOne = listingLtOne
    ∧ containsSub (plainText (parseHTML (stripConumFromCode listingLtOne))) "<1>" = true
    ∧ stripConumFromCode listingParenOne =
        "<div class=\"listingblock\"><pre>foo();\n</pre></div>"
    ∧ containsSub (plainText (parseHTML (stripConumFromCode listingParenOne))) "(1)" = false
    ∧ stripConumFromCode listingConum =
        "<div class=\"listingblock\"><pre>foo(); <i class=\"conum\" data-value=\"1\" aria-hidden=\"true\"></i>\n</pre></div>"
    ∧ containsSub (plainText (parseHTML (stripConumFromCode listingConum))) "(1)" = false
    ∧ containsSub (stripConumFromCode listingConum) "conum" = true := by
  refine ⟨by decide, by decide, by decide, by decide, by decide, by decide, by decide⟩

set_option maxRecDepth 8000 in
/-- C8 counterexample: the Normalizer is not idempotent.  On a listing
line ending in stacked callout markers `(1)(2)`, one run strips only the
end-of-line `(2)`, leaving `(1)` at end of line; a second run strips that
too, so running the composition twice differs from running it once. -/
theorem normalizer_not_idempotent :
    normalizeHtml (normalizeHtml listingStacked) ≠ normalizeHtml listingStacked
    ∧ normalizeHtml listingStacked =
        "<div class=\"listingblock\"><pre>foo (1)\n</pre></div>"
    ∧ normalizeHtml (normalizeHtml listingStacked) =
        "<div class=\"listingblock\"><pre>foo\n</pre></div>" := by
  refine ⟨by decide, by decide, by decide⟩

set_option maxRecDepth 8000 in
/-- C8 (amended): the admonition restyle targets only the renderer's
`div.admonitionblock` markup, so admonitions already in the target
`div.admonition` form are not wrapped a second time: normalizing
Asciidoctor admonition markup converts it, and normalizing the converted
form leaves it unchanged. -/
theorem normalizer_admonition_stable :
    normalizeHtml admonitionExample = admonitionTarget
    ∧ normalizeHtml admonitionTarget = admonitionTarget
    ∧ admonitionExample ≠ admonitionTarget := by
  refine ⟨by decide, by decide, by decide⟩

/-- C9 counterexample: the claim's second title fallback is "the first
heading element", but the source looks only for the first `h1`.  On a
document whose only heading is an `h2` followed by a `title` element the
code takes the `title` element's text while the claim's precedence takes
the `h2` text. -/
theorem extract_meta_claim_counterexample :
    (extractMetaHtml metaExample).title = some "Bar"
    ∧ (extractMetaClaimC9 metaExample).title = some "Foo"
    ∧ extractMetaHtml metaExample ≠ extractMetaClaimC9 metaExample := by
  refine ⟨by decide, by decide, ?_⟩
  intro h
  exact absurd (congrArg MetaMap.title h) (by decide)

/-- C9 (amended): the title comes from the `sect0` document-title `h1`,
else the first `h1` element, else the first `title` element; the
description only from a description meta tag with non-empty content; a
missing source simply leaves the field empty. -/
theorem extract_meta_amended :
    (∀ html, extractMetaHtml html = extractMetaSpecAmended html)
    ∧ extractMetaHtml "<h1 class=\"sect0\">T</h1><meta name=\"description\" content=\"D\">"
        = ⟨some "T", some "D"⟩
    ∧ extractMetaHtml "<meta name=\"description\" content=\"\">" = ⟨none, none⟩
    ∧ extractMetaHtml "<h2>Foo</h2>" = ⟨none, none⟩ :=
  ⟨fun _ => rfl, rfl, rfl, rfl⟩

/-- C10: TOC construction never modifies the stored HTML: whenever
`_render_adoc_cached` renders (invocation flag true), the stored and
returned document's `html` field is exactly the renderer's output, with
the TOC built on a private parse.  Concretely, for renderer output whose
`h2` has no id, the TOC carries the synthesized slug anchor while the
page body `on_page_content` returns is unchanged and contains no id
attribute. -/
theorem toc_private_to_builder :
    (∀ proc cmd failFast cache key mtime sha1 r c,
      renderAdocCached proc cmd failFast cache key mtime sha1 = .ok (r, c, true) →
      ∃ html meta, runAsciidoctor cmd key failFast proc = .ok (html, meta)
        ∧ r.html = html ∧ r.toc = buildToc html ∧ r.meta = meta)
    ∧ buildToc headingNoId = [⟨"My Heading", "my-heading", []⟩]
    ∧ onPageContentHtml ⟨headingNoId, buildToc headingNoId, ⟨none, none⟩⟩ = headingNoId
    ∧ containsSub headingNoId "id=" = false := by
  refine ⟨?_, rfl, by decide, by decide⟩
  intro proc cmd failFast cache key mtime sha1 r c hres
  rw [renderAdocCached] at hres
  cases hget : cacheGet cache key with
  | none =>
    simp [hget] at hres
    cases hrun : runAsciidoctor cmd key failFast proc with
    | error e => simp [hrun] at hres
    | ok v =>
      obtain ⟨html, meta⟩ := v
      simp [hrun] at hres
      obtain ⟨h1, _, _⟩ := hres
      exact ⟨html, meta, rfl, by rw [← h1], by rw [← h1], by rw [← h1]⟩
  | some v =>
    obtain ⟨m, s, r2⟩ := v
    by_cases hcond : m = mtime ∧ s = sha1
    · obtain ⟨hm, hs⟩ := hcond
      subst hm; subst hs
      simp [hget] at hres
    · have hcondb : (decide (m = mtime) && decide (s = sha1)) = false := by
        rcases Decidable.em (m = mtime) with hm | hm <;>
          rcases Decidable.em (s = sha1) with hs | hs <;>
            simp [hm, hs] at hcond ⊢
      simp [hget, hcondb] at hres
      cases hrun : runAsciidoctor cmd key failFast proc with
      | error e => simp [hrun] at hres
      | ok v =>
        obtain ⟨html, meta⟩ := v
        simp [hrun] at hres
        obtain ⟨h1, _, _⟩ := hres
        exact ⟨html, meta, rfl, by rw [← h1], by rw [← h1], by rw [← h1]⟩

set_option maxRecDepth 8000 in
/-- Witness for C10 at a concrete miss: the renderer output `headingNoId`
is stored as the document html unchanged. -/
theorem toc_private_to_builder_witness :
    ∃ html meta, runAsciidoctor "asciidoctor" "k" true (.ok headingNoId) = .ok (html, meta)
      ∧ headingRendered.html = html ∧ headingRendered.toc = buildToc html
      ∧ headingRendered.meta = meta :=
  (toc_private_to_builder).1 (.ok headingNoId) "asciidoctor" true [] "k" 1 "s"
    headingRendered (cacheSet [] "k" (1, "s", headingRendered)) rfl
